import Mathlib

/-!
Shallow embedding of the Runbook AI CORS proxy (src/proxy/server.js) and
verification of its specification claims.

The proxy is a single request pipeline: CORS preflight handling, origin
authorization, target-URL extraction and validation, header sanitization,
upstream dispatch, response relay.  We embed the request handler as a pure
function from the inbound request (method, headers, decoded query
parameters, raw body bytes) and the outcome of the single upstream fetch
to the response written back plus the fetch call issued (if any).

Node's http module delivers `req.headers` with lower-cased keys, but the
embedding keeps header keys as arbitrary strings and models every lookup
and case-fold exactly where the JavaScript performs one.
-/

/-- ASCII lower-casing of one character, as JavaScript `toLowerCase` acts on
the ASCII range (header names are ASCII). -/
def lowerChar (c : Char) : Char :=
  if 'A' ≤ c ∧ c ≤ 'Z' then Char.ofNat (c.toNat + 32) else c

/-- ASCII lower-casing of a string, modelling JavaScript `toLowerCase` on the
ASCII header names the proxy compares. -/
def lowerStr (s : String) : String :=
  (s.toList.map lowerChar).asString

/-- Tests whether the first character list is an initial segment of the
second. -/
def leadsList : List Char → List Char → Bool
  | [], _ => true
  | _ :: _, [] => false
  | a :: pre, b :: s => a == b && leadsList pre s

/-- Models JavaScript `s.startsWith(pre)`. -/
def startsWithStr (s pre : String) : Bool :=
  leadsList pre.toList s.toList

/-- Exact-key first-match lookup, modelling JavaScript property access on a
plain object built from a list of entries (`req.headers[name]`) and
`URLSearchParams.get` (first occurrence wins). -/
def getEntry (hs : List (String × String)) (name : String) : Option String :=
  (hs.find? (fun p => p.1 = name)).map (fun p => p.2)

/-- Case-insensitive lookup, modelling the fetch API `Headers.get`. -/
def headersGet (hs : List (String × String)) (name : String) : Option String :=
  (hs.find? (fun p => lowerStr p.1 = name)).map (fun p => p.2)

/-- JavaScript `x || fallback` on a value that is a string or null/undefined:
the fallback is taken when the value is absent or the empty string (both are
falsy in JavaScript). -/
def jsOr (x : Option String) (fallback : String) : String :=
  match x with
  | none => fallback
  | some v => if v = "" then fallback else v

/-- JavaScript `!x` truthiness test on a string-or-null value: `!x` holds when
the value is absent or the empty string. -/
def jsFalsy (x : Option String) : Bool :=
  match x with
  | none => true
  | some v => v = ""

/-- ALLOWED_ORIGINS from server.js: the fixed origin allowlist. -/
def ALLOWED_ORIGINS : List String :=
  ["http://localhost:9003", "https://runbookai.net", "https://www.runbookai.net"]

/-- HOP_BY_HOP from server.js: header names never forwarded upstream. -/
def HOP_BY_HOP : List String :=
  ["connection", "keep-alive", "proxy-authenticate", "proxy-authorization",
   "te", "trailers", "transfer-encoding", "upgrade",
   "host", "origin", "referer", "cookie"]

/-- BROWSER_ONLY from server.js: browser-identity header names not forwarded. -/
def BROWSER_ONLY : List String :=
  ["user-agent", "accept", "accept-language", "accept-encoding",
   "cache-control", "pragma"]

/-- PROXY_UA: the fixed user-agent string the proxy sets on forwarded requests. -/
def PROXY_UA : String := "runbook-ai-proxy/1.0"

/-- The filter condition of the forwardHeaders loop in server.js: a header is
kept when its lower-cased name is in neither HOP_BY_HOP nor BROWSER_ONLY and
does not start with "sec-". -/
def keepHeader (key : String) : Bool :=
  let lower := lowerStr key
  !(HOP_BY_HOP.contains lower) && !(BROWSER_ONLY.contains lower) &&
    !(startsWithStr lower "sec-")

/-- JavaScript object assignment `obj[k] = v`: overwrite the entry whose key
is exactly `k` when one exists, otherwise append a new entry. -/
def setHeader (hs : List (String × String)) (k v : String) :
    List (String × String) :=
  if hs.any (fun p => p.1 = k) then
    hs.map (fun p => if p.1 = k then (k, v) else p)
  else
    hs ++ [(k, v)]

/-- forwardHeaders from server.js: keep every inbound header passing
`keepHeader`, then force-set the user-agent to the proxy identity string. -/
def forwardHeaders (headers : List (String × String)) :
    List (String × String) :=
  setHeader (headers.filter (fun p => keepHeader p.1)) "user-agent" PROXY_UA

/-- corsHeaders from server.js.  `requestedHeaders` is the (possibly absent)
Access-Control-Request-Headers value; the JavaScript `||` falls back to
"Authorization, Content-Type" when it is absent or empty. -/
def corsHeaders (origin : String) (requestedHeaders : Option String) :
    List (String × String) :=
  [("Access-Control-Allow-Origin", origin),
   ("Access-Control-Allow-Methods", "GET, POST, PUT, PATCH, DELETE, OPTIONS"),
   ("Access-Control-Allow-Headers", jsOr requestedHeaders "Authorization, Content-Type"),
   ("Access-Control-Max-Age", "86400")]

/-- Characters allowed after the first character of a URL scheme. -/
def isSchemeChar (c : Char) : Bool :=
  c.isAlphanum || c == '+' || c == '-' || c == '.'

/-- The WHATWG special schemes. -/
def SPECIAL_SCHEMES : List String := ["ftp", "file", "http", "https", "ws", "wss"]

/-- Result of parsing an absolute URL: the lower-cased scheme with trailing
colon (as exposed by `URL.protocol`) and the serialized form. -/
structure ParsedURL where
  protocol : String
  href : String
deriving DecidableEq

/-- Models the platform WHATWG URL constructor (`new URL(s)` with no base) at
the precision the proxy uses it: the input must begin with a scheme (an ASCII
letter followed by letters, digits, `+`, `-`, `.`) and a colon, the scheme is
lower-cased into `protocol`, and a special scheme other than `file` must be
followed by a non-empty authority (so strings like "http:" or "http://" fail
to parse).  Host syntax beyond non-emptiness, and serialization, are not
modelled; `href` is the input string. -/
def urlParse (s : String) : Option ParsedURL :=
  let cs := s.toList
  match cs.findIdx? (fun c => c == ':') with
  | none => none
  | some i =>
    if i = 0 then none
    else
      let schemeCs := cs.take i
      if !(schemeCs.headD ' ').isAlpha then none
      else if !schemeCs.all isSchemeChar then none
      else
        let scheme := (schemeCs.map lowerChar).asString
        let rest := cs.drop (i + 1)
        if SPECIAL_SCHEMES.contains scheme && scheme != "file" &&
            (rest.dropWhile (fun c => c == '/')).isEmpty then
          none
        else
          some { protocol := scheme ++ ":", href := s }

/-- An inbound HTTP request as the handler sees it: method, header map
(`req.headers`), the decoded query parameters of `req.url`, and the raw body
bytes collected by readBody. -/
structure Request where
  method : String
  headers : List (String × String)
  query : List (String × String)
  body : List Nat
deriving DecidableEq

/-- The body a response is ended with: a JSON object (res.end of
JSON.stringify applied to a flat object of string fields), raw bytes, or
nothing. -/
inductive RespBody
  | jsonObj (fields : List (String × String))
  | bytes (b : List Nat)
  | empty
deriving DecidableEq

/-- A response as written by res.writeHead / res.end: status code, the
explicit header object passed to writeHead, and the body. -/
structure Response where
  status : Nat
  headers : List (String × String)
  body : RespBody
deriving DecidableEq

/-- The single fetch call the handler may issue: target URL, method, header
object, optional body (omitted entirely when the inbound body is empty). -/
structure FetchCall where
  url : String
  method : String
  headers : List (String × String)
  body : Option (List Nat)
deriving DecidableEq

/-- Outcome of the upstream fetch: a response (status, header map, raw body
bytes) or a network/transport failure carrying an error message. -/
inductive UpstreamResult
  | ok (status : Nat) (headers : List (String × String)) (body : List Nat)
  | err (message : String)
deriving DecidableEq

/-- The origin the handler works with: `req.headers['origin'] || ''`. -/
def originOf (req : Request) : String :=
  (getEntry req.headers "origin").getD ""

/-- The request handler of server.js as a pure function.  Given the inbound
request and the outcome of the (at most one) upstream fetch, it returns the
response written to the caller together with the fetch call issued, or none
when the pipeline short-circuits before dispatch. -/
def handle (req : Request) (upstream : UpstreamResult) :
    Response × Option FetchCall :=
  let origin := originOf req
  if req.method = "OPTIONS" then
    if ALLOWED_ORIGINS.contains origin then
      let requestedHeaders := getEntry req.headers "access-control-request-headers"
      ({ status := 204, headers := corsHeaders origin requestedHeaders,
         body := .empty }, none)
    else
      ({ status := 403, headers := [], body := .empty }, none)
  else if !(ALLOWED_ORIGINS.contains origin) then
    ({ status := 403, headers := [("Content-Type", "application/json")],
       body := .jsonObj [("error", "Origin not allowed")] }, none)
  else
    let targetUrl := getEntry req.query "url"
    if jsFalsy targetUrl then
      ({ status := 400,
         headers := ("Content-Type", "application/json") :: corsHeaders origin none,
         body := .jsonObj [("error", "Missing ?url= parameter")] }, none)
    else
      match urlParse (targetUrl.getD "") with
      | none =>
        ({ status := 400,
           headers := ("Content-Type", "application/json") :: corsHeaders origin none,
           body := .jsonObj [("error", "Invalid target URL")] }, none)
      | some parsed =>
        if parsed.protocol ≠ "http:" ∧ parsed.protocol ≠ "https:" then
          ({ status := 400,
             headers := ("Content-Type", "application/json") :: corsHeaders origin none,
             body := .jsonObj [("error", "Invalid target URL")] }, none)
        else
          let fwd := forwardHeaders req.headers
          let call : FetchCall :=
            { url := parsed.href, method := req.method, headers := fwd,
              body := if req.body.length > 0 then some req.body else none }
          match upstream with
          | .ok ustatus uheaders ubody =>
            let contentType := jsOr (headersGet uheaders "content-type") "application/json"
            ({ status := ustatus,
               headers := ("Content-Type", contentType) :: corsHeaders origin none,
               body := .bytes ubody }, some call)
          | .err msg =>
            ({ status := 502,
               headers := ("Content-Type", "application/json") :: corsHeaders origin none,
               body := .jsonObj [("error", "Upstream error"), ("message", msg)] },
             some call)

/-- The response header names the four CORS headers use. -/
def CORS_HEADER_NAMES : List String :=
  ["Access-Control-Allow-Origin", "Access-Control-Allow-Methods",
   "Access-Control-Allow-Headers", "Access-Control-Max-Age"]

/-! ### Helper lemmas about header sanitization -/

theorem keepHeader_ne_ua {k : String} (h : keepHeader k = true) :
    k ≠ "user-agent" := by
  intro he
  subst he
  exact absurd h (by decide)

theorem keepHeader_parts {k : String} (h : keepHeader k = true) :
    HOP_BY_HOP.contains (lowerStr k) = false ∧
    BROWSER_ONLY.contains (lowerStr k) = false ∧
    startsWithStr (lowerStr k) "sec-" = false := by
  simp only [keepHeader, Bool.and_eq_true, Bool.not_eq_true'] at h
  exact ⟨h.1.1, h.1.2, h.2⟩

theorem forwardHeaders_eq_append (hs : List (String × String)) :
    forwardHeaders hs =
      hs.filter (fun p => keepHeader p.1) ++ [("user-agent", PROXY_UA)] := by
  unfold forwardHeaders setHeader
  have hno : ((hs.filter (fun p => keepHeader p.1)).any
      (fun p => p.1 = "user-agent")) = false := by
    rw [List.any_eq_false]
    intro p hp
    have hf := List.mem_filter.mp hp
    simp [keepHeader_ne_ua hf.2]
  rw [hno]
  simp

theorem mem_forwardHeaders {hs : List (String × String)} {p : String × String}
    (h : p ∈ forwardHeaders hs) :
    (p ∈ hs ∧ keepHeader p.1 = true) ∨ p = ("user-agent", PROXY_UA) := by
  rw [forwardHeaders_eq_append] at h
  rcases List.mem_append.mp h with h | h
  · exact Or.inl (List.mem_filter.mp h)
  · simp only [List.mem_singleton] at h
    exact Or.inr h

theorem mem_forwardHeaders_of_keep {hs : List (String × String)}
    {p : String × String} (hp : p ∈ hs) (hk : keepHeader p.1 = true) :
    p ∈ forwardHeaders hs := by
  rw [forwardHeaders_eq_append]
  exact List.mem_append.mpr (Or.inl (List.mem_filter.mpr ⟨hp, hk⟩))

theorem getEntry_forwardHeaders_ua (hs : List (String × String)) :
    getEntry (forwardHeaders hs) "user-agent" = some PROXY_UA := by
  rw [forwardHeaders_eq_append]
  unfold getEntry
  rw [List.find?_append]
  have hnone : ((hs.filter (fun p => keepHeader p.1)).find?
      (fun p => p.1 = "user-agent")) = none := by
    rw [List.find?_eq_none]
    intro p hp
    have hf := List.mem_filter.mp hp
    simp [keepHeader_ne_ua hf.2]
  rw [hnone]
  rfl

/-- Claim C2: for every request that reaches header sanitization, the
forwarded header map contains no header whose lower-cased name is in the
hop-by-hop set, no browser-identity header other than the force-set proxy
user-agent, and no header whose lower-cased name starts with "sec-"; every
other inbound header is forwarded with its value unchanged, and the
forwarded user-agent is exactly "runbook-ai-proxy/1.0". -/
theorem c2_header_sanitization (hs : List (String × String)) :
    (∀ p ∈ forwardHeaders hs, HOP_BY_HOP.contains (lowerStr p.1) = false) ∧
    (∀ p ∈ forwardHeaders hs, BROWSER_ONLY.contains (lowerStr p.1) = true →
      p = ("user-agent", PROXY_UA)) ∧
    (∀ p ∈ forwardHeaders hs, startsWithStr (lowerStr p.1) "sec-" = false) ∧
    (∀ p ∈ hs, keepHeader p.1 = true → p ∈ forwardHeaders hs) ∧
    getEntry (forwardHeaders hs) "user-agent" = some PROXY_UA := by
  refine ⟨?_, ?_, ?_, ?_, getEntry_forwardHeaders_ua hs⟩
  · intro p hp
    rcases mem_forwardHeaders hp with ⟨_, hk⟩ | he
    · exact (keepHeader_parts hk).1
    · rw [he]
      decide
  · intro p hp hb
    rcases mem_forwardHeaders hp with ⟨_, hk⟩ | he
    · rw [(keepHeader_parts hk).2.1] at hb
      exact absurd hb Bool.false_ne_true
    · exact he
  · intro p hp
    rcases mem_forwardHeaders hp with ⟨_, hk⟩ | he
    · exact (keepHeader_parts hk).2.2
    · rw [he]
      decide
  · intro p hp hk
    exact mem_forwardHeaders_of_keep hp hk

/-- Claim C2 witness: the sanitization property instantiated at a concrete
header map containing an authorization header and a cookie. -/
theorem c2_header_sanitization_witness :
    (∀ p ∈ forwardHeaders [("authorization", "Bot tok"), ("cookie", "a=b")],
      HOP_BY_HOP.contains (lowerStr p.1) = false) ∧
    (∀ p ∈ forwardHeaders [("authorization", "Bot tok"), ("cookie", "a=b")],
      BROWSER_ONLY.contains (lowerStr p.1) = true →
      p = ("user-agent", PROXY_UA)) ∧
    (∀ p ∈ forwardHeaders [("authorization", "Bot tok"), ("cookie", "a=b")],
      startsWithStr (lowerStr p.1) "sec-" = false) ∧
    (∀ p ∈ [("authorization", "Bot tok"), ("cookie", "a=b")],
      keepHeader p.1 = true →
      p ∈ forwardHeaders [("authorization", "Bot tok"), ("cookie", "a=b")]) ∧
    getEntry (forwardHeaders [("authorization", "Bot tok"), ("cookie", "a=b")])
      "user-agent" = some PROXY_UA :=
  c2_header_sanitization [("authorization", "Bot tok"), ("cookie", "a=b")]

/-- Claim C3: the claim asserts that every inbound header whose lower-cased
name begins with "accept" is stripped; the code keeps accept-charset, which
the code's own comment (strip accept-&#x2d;prefixed headers) says should be
stripped.  This theorem evaluates the sanitizer at the failing input: the
accept-charset header is forwarded unchanged even though its name starts
with "accept". -/
theorem c3_accept_charset_forwarded :
    forwardHeaders [("accept-charset", "utf-8")] =
      [("accept-charset", "utf-8"), ("user-agent", PROXY_UA)] ∧
    startsWithStr (lowerStr "accept-charset") "accept" = true := by
  decide

theorem filter_keep_congr : ∀ (hs₁ hs₂ : List (String × String)),
    hs₁.length = hs₂.length →
    (∀ q ∈ hs₁.zip hs₂, q.1.1 = q.2.1 ∧ (keepHeader q.1.1 = true → q.1.2 = q.2.2)) →
    hs₁.filter (fun p => keepHeader p.1) = hs₂.filter (fun p => keepHeader p.1)
  | [], [], _, _ => rfl
  | [], _ :: _, hlen, _ => by simp at hlen
  | _ :: _, [], hlen, _ => by simp at hlen
  | p₁ :: t₁, p₂ :: t₂, hlen, h => by
    have hh := h (p₁, p₂) (by rw [List.zip_cons_cons]; exact List.mem_cons_self _ _)
    have ht := filter_keep_congr t₁ t₂ (by simpa using hlen)
      (fun q hq => h q (by rw [List.zip_cons_cons]; exact List.mem_cons_of_mem _ hq))
    have hkeq : keepHeader p₂.1 = keepHeader p₁.1 := by rw [hh.1]
    by_cases hkeep : keepHeader p₁.1 = true
    · have hpq : p₁ = p₂ := Prod.ext hh.1 (hh.2 hkeep)
      simp only [List.filter_cons, hkeep, hkeq, if_true, ht, hpq]
    · have hkeep' : keepHeader p₁.1 = false := Bool.eq_false_iff.mpr hkeep
      simp only [List.filter_cons, hkeep', hkeq, Bool.false_eq_true, if_false, ht]

/-- Claim C10: the forwarded header map is independent of stripped-header
values.  For any two inbound header maps of equal length whose entries agree
pairwise on names, and agree on values wherever the name survives the filter,
the sanitizer produces identical forwarded header maps: changing only the
values of hop-by-hop, browser-identity, or "sec-"-prefixed headers (such as
cookie, referer, user-agent) cannot change what is forwarded. -/
theorem c10_stripped_value_independence (hs₁ hs₂ : List (String × String))
    (hlen : hs₁.length = hs₂.length)
    (h : ∀ q ∈ hs₁.zip hs₂, q.1.1 = q.2.1 ∧
      (keepHeader q.1.1 = true → q.1.2 = q.2.2)) :
    forwardHeaders hs₁ = forwardHeaders hs₂ := by
  rw [forwardHeaders_eq_append, forwardHeaders_eq_append,
    filter_keep_congr hs₁ hs₂ hlen h]

/-- Claim C10 witness: two concrete requests differing only in the values of
the cookie, referer and user-agent headers produce the same forwarded map. -/
theorem c10_stripped_value_independence_witness :
    ([("authorization", "Bot tok"), ("cookie", "sid=1"), ("referer", "http://a/"),
       ("user-agent", "Mozilla/5.0")] : List (String × String)).length =
      ([("authorization", "Bot tok"), ("cookie", "sid=2"), ("referer", "http://b/"),
         ("user-agent", "curl/8")] : List (String × String)).length ∧
    forwardHeaders
        [("authorization", "Bot tok"), ("cookie", "sid=1"), ("referer", "http://a/"),
         ("user-agent", "Mozilla/5.0")] =
      forwardHeaders
        [("authorization", "Bot tok"), ("cookie", "sid=2"), ("referer", "http://b/"),
         ("user-agent", "curl/8")] :=
  ⟨by decide,
   c10_stripped_value_independence
     [("authorization", "Bot tok"), ("cookie", "sid=1"), ("referer", "http://a/"),
      ("user-agent", "Mozilla/5.0")]
     [("authorization", "Bot tok"), ("cookie", "sid=2"), ("referer", "http://b/"),
      ("user-agent", "curl/8")]
     (by decide) (by decide)⟩

/-- Concrete GET request from a non-allowlisted origin, used to instantiate
universally quantified theorems. -/
def evilGetReq : Request :=
  { method := "GET"
    headers := [("origin", "https://evil.example")]
    query := [("url", "http://api.example/")]
    body := [] }

/-- Claim C1: every inbound request whose Origin header is not an exact
member of ALLOWED_ORIGINS (including requests with no Origin header, where
the handler sees the empty string) receives status 403, regardless of method
and path; for non-OPTIONS requests the response body is the JSON object with
the single field error = "Origin not allowed" and the response carries no
CORS header. -/
theorem c1_origin_rejected (req : Request) (u : UpstreamResult)
    (h : ALLOWED_ORIGINS.contains (originOf req) = false) :
    (handle req u).1.status = 403 ∧
    (req.method ≠ "OPTIONS" →
      (handle req u).1.body = .jsonObj [("error", "Origin not allowed")] ∧
      ∀ p ∈ (handle req u).1.headers, CORS_HEADER_NAMES.contains p.1 = false) := by
  have h' : originOf req ∉ ALLOWED_ORIGINS := by simpa using h
  by_cases hm : req.method = "OPTIONS"
  · refine ⟨by simp [handle, hm, h'], fun hmm => absurd hm hmm⟩
  · have hres : (handle req u).1 =
        { status := 403, headers := [("Content-Type", "application/json")],
          body := .jsonObj [("error", "Origin not allowed")] } := by
      simp [handle, hm, h']
    refine ⟨by rw [hres], fun _ => ⟨by rw [hres], ?_⟩⟩
    intro p hp
    rw [hres] at hp
    simp only [List.mem_singleton] at hp
    rw [hp]
    decide

/-- Claim C1 witness: the rejection property evaluated at a concrete GET
request from a non-allowlisted origin. -/
theorem c1_origin_rejected_witness :
    ALLOWED_ORIGINS.contains (originOf evilGetReq) = false ∧
    ((handle evilGetReq (.err "boom")).1.status = 403 ∧
      (evilGetReq.method ≠ "OPTIONS" →
        (handle evilGetReq (.err "boom")).1.body =
          .jsonObj [("error", "Origin not allowed")] ∧
        ∀ p ∈ (handle evilGetReq (.err "boom")).1.headers,
          CORS_HEADER_NAMES.contains p.1 = false)) :=
  ⟨by decide, c1_origin_rejected evilGetReq (.err "boom") (by decide)⟩

/-- Concrete allowlisted preflight request whose
Access-Control-Request-Headers header is present with the empty value. -/
def preflightEmptyAcrhReq : Request :=
  { method := "OPTIONS"
    headers := [("origin", "http://localhost:9003"),
                ("access-control-request-headers", "")]
    query := []
    body := [] }

/-- Claim C4 counterexample: for an allowlisted OPTIONS request whose
Access-Control-Request-Headers header is present with the empty value, the
claim requires Access-Control-Allow-Headers to echo that value verbatim
(the empty string), but the JavaScript falsiness fallback substitutes
"Authorization, Content-Type". -/
theorem c4_preflight_counterexample :
    getEntry preflightEmptyAcrhReq.headers "access-control-request-headers" =
      some "" ∧
    getEntry (handle preflightEmptyAcrhReq (.err "e")).1.headers
      "Access-Control-Allow-Headers" = some "Authorization, Content-Type" ∧
    getEntry (handle preflightEmptyAcrhReq (.err "e")).1.headers
      "Access-Control-Allow-Headers" ≠ some "" := by
  decide

/-- Claim C4 (amended): for every OPTIONS request with an allowlisted Origin
the proxy responds 204 with no body, Access-Control-Allow-Origin equal to the
request's Origin, Access-Control-Allow-Methods fixed, Access-Control-Max-Age
"86400", and Access-Control-Allow-Headers echoing the request's
Access-Control-Request-Headers value verbatim when that header is present
with a non-empty value, falling back to "Authorization, Content-Type" when
it is absent or empty; for an OPTIONS request with a non-allowlisted Origin
the response is 403 with no body and no headers. -/
theorem c4_preflight (req : Request) (u : UpstreamResult)
    (hm : req.method = "OPTIONS") :
    (ALLOWED_ORIGINS.contains (originOf req) = true →
      (handle req u).1.status = 204 ∧
      (handle req u).1.body = .empty ∧
      getEntry (handle req u).1.headers "Access-Control-Allow-Origin" =
        some (originOf req) ∧
      getEntry (handle req u).1.headers "Access-Control-Allow-Methods" =
        some "GET, POST, PUT, PATCH, DELETE, OPTIONS" ∧
      getEntry (handle req u).1.headers "Access-Control-Max-Age" =
        some "86400" ∧
      (∀ v, getEntry req.headers "access-control-request-headers" = some v →
        v ≠ "" →
        getEntry (handle req u).1.headers "Access-Control-Allow-Headers" =
          some v) ∧
      ((getEntry req.headers "access-control-request-headers" = none ∨
        getEntry req.headers "access-control-request-headers" = some "") →
        getEntry (handle req u).1.headers "Access-Control-Allow-Headers" =
          some "Authorization, Content-Type")) ∧
    (ALLOWED_ORIGINS.contains (originOf req) = false →
      (handle req u).1 = { status := 403, headers := [], body := .empty }) := by
  constructor
  · intro hin
    have hin' : originOf req ∈ ALLOWED_ORIGINS := by simpa using hin
    have hres : (handle req u).1 =
        { status := 204,
          headers := corsHeaders (originOf req)
            (getEntry req.headers "access-control-request-headers"),
          body := .empty } := by
      simp [handle, hm, hin']
    rw [hres]
    refine ⟨rfl, rfl, ?_, ?_, ?_, ?_, ?_⟩
    · simp [getEntry, corsHeaders]
    · simp [getEntry, corsHeaders]
    · simp [getEntry, corsHeaders]
    · intro v hv hne
      rw [hv]
      simp [getEntry, corsHeaders, jsOr, hne]
    · intro hfb
      rcases hfb with hfb | hfb <;> rw [hfb] <;> simp [getEntry, corsHeaders, jsOr]
  · intro hout
    have hout' : originOf req ∉ ALLOWED_ORIGINS := by simpa using hout
    simp [handle, hm, hout']

/-- Concrete allowlisted preflight request asking to send a custom header. -/
def preflightCustomReq : Request :=
  { method := "OPTIONS"
    headers := [("origin", "https://runbookai.net"),
                ("access-control-request-headers", "Authorization, X-Custom")]
    query := []
    body := [] }

/-- Claim C4 witness: the amended preflight property evaluated at a concrete
allowlisted OPTIONS request carrying Access-Control-Request-Headers. -/
theorem c4_preflight_witness :
    preflightCustomReq.method = "OPTIONS" ∧
    ((ALLOWED_ORIGINS.contains (originOf preflightCustomReq) = true →
      (handle preflightCustomReq (.err "e")).1.status = 204 ∧
      (handle preflightCustomReq (.err "e")).1.body = .empty ∧
      getEntry (handle preflightCustomReq (.err "e")).1.headers
        "Access-Control-Allow-Origin" = some (originOf preflightCustomReq) ∧
      getEntry (handle preflightCustomReq (.err "e")).1.headers
        "Access-Control-Allow-Methods" =
        some "GET, POST, PUT, PATCH, DELETE, OPTIONS" ∧
      getEntry (handle preflightCustomReq (.err "e")).1.headers
        "Access-Control-Max-Age" = some "86400" ∧
      (∀ v, getEntry preflightCustomReq.headers
          "access-control-request-headers" = some v → v ≠ "" →
        getEntry (handle preflightCustomReq (.err "e")).1.headers
          "Access-Control-Allow-Headers" = some v) ∧
      ((getEntry preflightCustomReq.headers
          "access-control-request-headers" = none ∨
        getEntry preflightCustomReq.headers
          "access-control-request-headers" = some "") →
        getEntry (handle preflightCustomReq (.err "e")).1.headers
          "Access-Control-Allow-Headers" =
          some "Authorization, Content-Type")) ∧
    (ALLOWED_ORIGINS.contains (originOf preflightCustomReq) = false →
      (handle preflightCustomReq (.err "e")).1 =
        { status := 403, headers := [], body := .empty })) :=
  ⟨rfl, c4_preflight preflightCustomReq (.err "e") rfl⟩

/-! ### Branch lemmas for the request pipeline -/

theorem jsFalsy_false {x : Option String} (h : jsFalsy x = false) :
    ∃ t, x = some t ∧ t ≠ "" := by
  cases x with
  | none => simp [jsFalsy] at h
  | some v => exact ⟨v, rfl, by simpa [jsFalsy] using h⟩

theorem getEntry_cons_self (n v : String) (rest : List (String × String)) :
    getEntry ((n, v) :: rest) n = some v := by
  unfold getEntry
  rw [List.find?_cons_of_pos _ (by simp)]
  rfl

theorem handle_missing (req : Request) (u : UpstreamResult)
    (hm : req.method ≠ "OPTIONS") (ho : originOf req ∈ ALLOWED_ORIGINS)
    (hu : jsFalsy (getEntry req.query "url") = true) :
    handle req u =
      ({ status := 400,
         headers := ("Content-Type", "application/json") ::
           corsHeaders (originOf req) none,
         body := .jsonObj [("error", "Missing ?url= parameter")] }, none) := by
  simp [handle, hm, ho, hu]

theorem handle_invalid (req : Request) (u : UpstreamResult) {t : String}
    (hm : req.method ≠ "OPTIONS") (ho : originOf req ∈ ALLOWED_ORIGINS)
    (ht : getEntry req.query "url" = some t) (hne : t ≠ "")
    (hbad : urlParse t = none ∨
      ∃ parsed, urlParse t = some parsed ∧
        parsed.protocol ≠ "http:" ∧ parsed.protocol ≠ "https:") :
    handle req u =
      ({ status := 400,
         headers := ("Content-Type", "application/json") ::
           corsHeaders (originOf req) none,
         body := .jsonObj [("error", "Invalid target URL")] }, none) := by
  have hfalsy : jsFalsy (getEntry req.query "url") = false := by
    rw [ht]
    simp [jsFalsy, hne]
  rcases hbad with hp | ⟨parsed, hp, h1, h2⟩
  · simp [handle, hm, ho, hfalsy, ht, hp, jsFalsy, hne]
  · simp [handle, hm, ho, hfalsy, ht, hp, h1, h2, jsFalsy, hne]

theorem handle_dispatch (req : Request) (u : UpstreamResult) {t : String}
    {parsed : ParsedURL}
    (hm : req.method ≠ "OPTIONS") (ho : originOf req ∈ ALLOWED_ORIGINS)
    (ht : getEntry req.query "url" = some t) (hne : t ≠ "")
    (hp : urlParse t = some parsed)
    (hs : parsed.protocol = "http:" ∨ parsed.protocol = "https:") :
    handle req u =
      ((match u with
        | .ok ustatus uheaders ubody =>
          { status := ustatus,
            headers := ("Content-Type",
                jsOr (headersGet uheaders "content-type") "application/json") ::
              corsHeaders (originOf req) none,
            body := .bytes ubody }
        | .err msg =>
          { status := 502,
            headers := ("Content-Type", "application/json") ::
              corsHeaders (originOf req) none,
            body := .jsonObj [("error", "Upstream error"), ("message", msg)] }),
       some { url := parsed.href, method := req.method,
              headers := forwardHeaders req.headers,
              body := if req.body.length > 0 then some req.body else none }) := by
  have hfalsy : jsFalsy (getEntry req.query "url") = false := by
    rw [ht]
    simp [jsFalsy, hne]
  rcases u with ⟨us, uh, ub⟩ | msg <;>
    rcases hs with hs | hs <;>
      simp [handle, hm, ho, hfalsy, ht, hp, hs, jsFalsy, hne]

/-- Concrete allowlisted GET request whose url query parameter is present
with the empty value. -/
def emptyUrlReq : Request :=
  { method := "GET"
    headers := [("origin", "http://localhost:9003")]
    query := [("url", "")]
    body := [] }

/-- Claim C5 counterexample: when the url query parameter is present with
the empty value, the claim classifies it as present-but-unparseable and
requires the "Invalid target URL" body, but JavaScript falsiness sends it
down the missing-parameter branch instead. -/
theorem c5_target_counterexample :
    getEntry emptyUrlReq.query "url" = some "" ∧
    (handle emptyUrlReq (.err "e")).1.body =
      .jsonObj [("error", "Missing ?url= parameter")] ∧
    (handle emptyUrlReq (.err "e")).1.body ≠
      .jsonObj [("error", "Invalid target URL")] := by
  decide

/-- Claim C5 (amended): for every non-OPTIONS request with an allowlisted
Origin: if the url query parameter is missing or present with the empty
value, the response is 400 with the "Missing ?url= parameter" JSON body and
CORS headers attached; if the parameter is present and non-empty but not
parseable as an absolute URL, or parses with a scheme other than http or
https, the response is 400 with the "Invalid target URL" JSON body and CORS
headers attached; a parameter parsing as an absolute http(s) URL proceeds to
dispatch. -/
theorem c5_target_validation (req : Request) (u : UpstreamResult)
    (hm : req.method ≠ "OPTIONS")
    (ho : ALLOWED_ORIGINS.contains (originOf req) = true) :
    ((getEntry req.query "url" = none ∨ getEntry req.query "url" = some "") →
      (handle req u).1.status = 400 ∧
      (handle req u).1.body = .jsonObj [("error", "Missing ?url= parameter")] ∧
      ∀ p ∈ corsHeaders (originOf req) none, p ∈ (handle req u).1.headers) ∧
    (∀ t, getEntry req.query "url" = some t → t ≠ "" →
      (urlParse t = none ∨
        ∃ parsed, urlParse t = some parsed ∧
          parsed.protocol ≠ "http:" ∧ parsed.protocol ≠ "https:") →
      (handle req u).1.status = 400 ∧
      (handle req u).1.body = .jsonObj [("error", "Invalid target URL")] ∧
      ∀ p ∈ corsHeaders (originOf req) none, p ∈ (handle req u).1.headers) ∧
    (∀ t parsed, getEntry req.query "url" = some t →
      urlParse t = some parsed →
      (parsed.protocol = "http:" ∨ parsed.protocol = "https:") →
      ∃ c, (handle req u).2 = some c) := by
  have ho' : originOf req ∈ ALLOWED_ORIGINS := by simpa using ho
  refine ⟨?_, ?_, ?_⟩
  · intro hmiss
    have hu : jsFalsy (getEntry req.query "url") = true := by
      rcases hmiss with hmiss | hmiss <;> rw [hmiss] <;> simp [jsFalsy]
    rw [handle_missing req u hm ho' hu]
    exact ⟨rfl, rfl, fun p hp => List.mem_cons_of_mem _ hp⟩
  · intro t ht hne hbad
    rw [handle_invalid req u hm ho' ht hne hbad]
    exact ⟨rfl, rfl, fun p hp => List.mem_cons_of_mem _ hp⟩
  · intro t parsed ht hp hs
    have hne : t ≠ "" := by
      intro he
      rw [he] at hp
      have hnone : urlParse "" = none := by decide
      rw [hnone] at hp
      exact Option.noConfusion hp
    rw [handle_dispatch req u hm ho' ht hne hp hs]
    exact ⟨_, rfl⟩

/-- Concrete allowlisted GET request targeting an ftp URL. -/
def ftpUrlReq : Request :=
  { method := "GET"
    headers := [("origin", "http://localhost:9003")]
    query := [("url", "ftp://host/path")]
    body := [] }

/-- Claim C5 witness: the amended target-validation property evaluated at a
concrete allowlisted request carrying url=ftp://host/path. -/
theorem c5_target_validation_witness :
    ftpUrlReq.method ≠ "OPTIONS" ∧
    ALLOWED_ORIGINS.contains (originOf ftpUrlReq) = true ∧
    (((getEntry ftpUrlReq.query "url" = none ∨
        getEntry ftpUrlReq.query "url" = some "") →
      (handle ftpUrlReq (.err "e")).1.status = 400 ∧
      (handle ftpUrlReq (.err "e")).1.body =
        .jsonObj [("error", "Missing ?url= parameter")] ∧
      ∀ p ∈ corsHeaders (originOf ftpUrlReq) none,
        p ∈ (handle ftpUrlReq (.err "e")).1.headers) ∧
    (∀ t, getEntry ftpUrlReq.query "url" = some t → t ≠ "" →
      (urlParse t = none ∨
        ∃ parsed, urlParse t = some parsed ∧
          parsed.protocol ≠ "http:" ∧ parsed.protocol ≠ "https:") →
      (handle ftpUrlReq (.err "e")).1.status = 400 ∧
      (handle ftpUrlReq (.err "e")).1.body =
        .jsonObj [("error", "Invalid target URL")] ∧
      ∀ p ∈ corsHeaders (originOf ftpUrlReq) none,
        p ∈ (handle ftpUrlReq (.err "e")).1.headers) ∧
    (∀ t parsed, getEntry ftpUrlReq.query "url" = some t →
      urlParse t = some parsed →
      (parsed.protocol = "http:" ∨ parsed.protocol = "https:") →
      ∃ c, (handle ftpUrlReq (.err "e")).2 = some c)) :=
  ⟨by decide, by decide, c5_target_validation ftpUrlReq (.err "e") (by decide) (by decide)⟩

/-- Concrete allowlisted POST request with a non-empty body targeting a
valid https URL. -/
def postApiReq : Request :=
  { method := "POST"
    headers := [("origin", "http://localhost:9003"), ("authorization", "Bot t")]
    query := [("url", "https://api.example/v1")]
    body := [1, 2, 3] }

/-- Claim C6 counterexample: when the upstream supplies a content-type header
whose value is the empty string, the claim requires the proxy to relay that
(empty) value, but the JavaScript falsiness fallback substitutes
"application/json". -/
theorem c6_relay_counterexample :
    headersGet [("content-type", "")] "content-type" = some "" ∧
    getEntry (handle postApiReq (.ok 200 [("content-type", "")] [7])).1.headers
      "Content-Type" = some "application/json" ∧
    getEntry (handle postApiReq (.ok 200 [("content-type", "")] [7])).1.headers
      "Content-Type" ≠ some "" := by
  decide

/-- Claim C6 (amended): on a successful upstream call, the proxy's response
carries exactly the upstream's status code and body bytes unchanged, with
Content-Type set to the upstream's content-type value when that value is
non-empty, defaulting to "application/json" when the upstream supplies none
or an empty value, and the CORS headers attached. -/
theorem c6_upstream_relay (req : Request) (ustatus : Nat)
    (uheaders : List (String × String)) (ubody : List Nat) {t : String}
    {parsed : ParsedURL}
    (hm : req.method ≠ "OPTIONS")
    (ho : ALLOWED_ORIGINS.contains (originOf req) = true)
    (ht : getEntry req.query "url" = some t) (hne : t ≠ "")
    (hp : urlParse t = some parsed)
    (hs : parsed.protocol = "http:" ∨ parsed.protocol = "https:") :
    (handle req (.ok ustatus uheaders ubody)).1.status = ustatus ∧
    (handle req (.ok ustatus uheaders ubody)).1.body = .bytes ubody ∧
    (∀ v, headersGet uheaders "content-type" = some v → v ≠ "" →
      getEntry (handle req (.ok ustatus uheaders ubody)).1.headers
        "Content-Type" = some v) ∧
    ((headersGet uheaders "content-type" = none ∨
      headersGet uheaders "content-type" = some "") →
      getEntry (handle req (.ok ustatus uheaders ubody)).1.headers
        "Content-Type" = some "application/json") ∧
    ∀ p ∈ corsHeaders (originOf req) none,
      p ∈ (handle req (.ok ustatus uheaders ubody)).1.headers := by
  have ho' : originOf req ∈ ALLOWED_ORIGINS := by simpa using ho
  rw [handle_dispatch req (.ok ustatus uheaders ubody) hm ho' ht hne hp hs]
  refine ⟨rfl, rfl, ?_, ?_, fun p hp => List.mem_cons_of_mem _ hp⟩
  · intro v hv hvne
    rw [getEntry_cons_self, hv]
    simp [jsOr, hvne]
  · intro hfb
    rcases hfb with hfb | hfb <;> rw [getEntry_cons_self, hfb] <;> simp [jsOr]

/-- Claim C6 witness: the amended relay property evaluated at a concrete
upstream 200 response with content-type text/plain. -/
theorem c6_upstream_relay_witness :
    postApiReq.method ≠ "OPTIONS" ∧
    ALLOWED_ORIGINS.contains (originOf postApiReq) = true ∧
    getEntry postApiReq.query "url" = some "https://api.example/v1" ∧
    ((handle postApiReq (.ok 200 [("content-type", "text/plain")] [7, 8])).1.status = 200 ∧
    (handle postApiReq (.ok 200 [("content-type", "text/plain")] [7, 8])).1.body =
      .bytes [7, 8] ∧
    (∀ v, headersGet [("content-type", "text/plain")] "content-type" = some v →
      v ≠ "" →
      getEntry (handle postApiReq
        (.ok 200 [("content-type", "text/plain")] [7, 8])).1.headers
        "Content-Type" = some v) ∧
    ((headersGet [("content-type", "text/plain")] "content-type" = none ∨
      headersGet [("content-type", "text/plain")] "content-type" = some "") →
      getEntry (handle postApiReq
        (.ok 200 [("content-type", "text/plain")] [7, 8])).1.headers
        "Content-Type" = some "application/json") ∧
    ∀ p ∈ corsHeaders (originOf postApiReq) none,
      p ∈ (handle postApiReq
        (.ok 200 [("content-type", "text/plain")] [7, 8])).1.headers) :=
  ⟨by decide, by decide, by decide,
   @c6_upstream_relay postApiReq 200 [("content-type", "text/plain")] [7, 8]
     "https://api.example/v1" { protocol := "https:", href := "https://api.example/v1" }
     (by decide) (by decide) (by decide) (by decide) (by decide) (by decide)⟩

/-- Claim C7: for every dispatched request on which the upstream call fails,
the proxy responds 502 with a JSON body whose error field is "Upstream
error" and whose message field carries the failure detail, with CORS headers
attached; and the fetch call issued is one fixed call, independent of the
upstream outcome (a single upstream attempt per inbound request, no retry). -/
theorem c7_upstream_failure (req : Request) (msg : String) {t : String}
    {parsed : ParsedURL}
    (hm : req.method ≠ "OPTIONS")
    (ho : ALLOWED_ORIGINS.contains (originOf req) = true)
    (ht : getEntry req.query "url" = some t) (hne : t ≠ "")
    (hp : urlParse t = some parsed)
    (hs : parsed.protocol = "http:" ∨ parsed.protocol = "https:") :
    (handle req (.err msg)).1.status = 502 ∧
    (handle req (.err msg)).1.body =
      .jsonObj [("error", "Upstream error"), ("message", msg)] ∧
    getEntry (handle req (.err msg)).1.headers "Content-Type" =
      some "application/json" ∧
    (∀ p ∈ corsHeaders (originOf req) none,
      p ∈ (handle req (.err msg)).1.headers) ∧
    ∃ c : FetchCall, ∀ u : UpstreamResult, (handle req u).2 = some c := by
  have ho' : originOf req ∈ ALLOWED_ORIGINS := by simpa using ho
  rw [handle_dispatch req (.err msg) hm ho' ht hne hp hs]
  refine ⟨rfl, rfl, getEntry_cons_self _ _ _,
    fun p hp => List.mem_cons_of_mem _ hp, ?_⟩
  refine ⟨{ url := parsed.href, method := req.method,
            headers := forwardHeaders req.headers,
            body := if req.body.length > 0 then some req.body else none }, ?_⟩
  intro u
  rw [handle_dispatch req u hm ho' ht hne hp hs]

/-- Claim C7 witness: the failure property evaluated at a concrete request
whose upstream call fails with message "getaddrinfo ENOTFOUND". -/
theorem c7_upstream_failure_witness :
    ((handle postApiReq (.err "getaddrinfo ENOTFOUND")).1.status = 502 ∧
    (handle postApiReq (.err "getaddrinfo ENOTFOUND")).1.body =
      .jsonObj [("error", "Upstream error"),
                ("message", "getaddrinfo ENOTFOUND")] ∧
    getEntry (handle postApiReq (.err "getaddrinfo ENOTFOUND")).1.headers
      "Content-Type" = some "application/json" ∧
    (∀ p ∈ corsHeaders (originOf postApiReq) none,
      p ∈ (handle postApiReq (.err "getaddrinfo ENOTFOUND")).1.headers) ∧
    ∃ c : FetchCall, ∀ u : UpstreamResult, (handle postApiReq u).2 = some c) :=
  @c7_upstream_failure postApiReq "getaddrinfo ENOTFOUND"
    "https://api.example/v1"
    { protocol := "https:", href := "https://api.example/v1" }
    (by decide) (by decide) (by decide) (by decide) (by decide) (by decide)

/-- Claim C8: for every dispatched request, the fetch call uses the original
method and the sanitized headers; a non-empty inbound body is sent upstream
byte-for-byte, and a zero-length inbound body results in no body at all. -/
theorem c8_body_forwarding (req : Request) (u : UpstreamResult) {t : String}
    {parsed : ParsedURL}
    (hm : req.method ≠ "OPTIONS")
    (ho : ALLOWED_ORIGINS.contains (originOf req) = true)
    (ht : getEntry req.query "url" = some t) (hne : t ≠ "")
    (hp : urlParse t = some parsed)
    (hs : parsed.protocol = "http:" ∨ parsed.protocol = "https:") :
    ∃ c, (handle req u).2 = some c ∧
      c.method = req.method ∧
      c.headers = forwardHeaders req.headers ∧
      (req.body ≠ [] → c.body = some req.body) ∧
      (req.body = [] → c.body = none) := by
  have ho' : originOf req ∈ ALLOWED_ORIGINS := by simpa using ho
  rw [handle_dispatch req u hm ho' ht hne hp hs]
  refine ⟨_, rfl, rfl, rfl, ?_, ?_⟩
  · intro hb
    have : req.body.length > 0 := List.length_pos.mpr hb
    simp [this]
  · intro hb
    simp [hb]

/-- Concrete allowlisted GET request with an empty body. -/
def getApiReq : Request :=
  { method := "GET"
    headers := [("origin", "https://runbookai.net")]
    query := [("url", "http://api.example/items")]
    body := [] }

/-- Claim C8 witness: the body-forwarding property evaluated at a concrete
GET request with an empty body. -/
theorem c8_body_forwarding_witness :
    ∃ c, (handle getApiReq (.ok 200 [] [])).2 = some c ∧
      c.method = getApiReq.method ∧
      c.headers = forwardHeaders getApiReq.headers ∧
      (getApiReq.body ≠ [] → c.body = some getApiReq.body) ∧
      (getApiReq.body = [] → c.body = none) :=
  @c8_body_forwarding getApiReq (.ok 200 [] []) "http://api.example/items"
    { protocol := "http:", href := "http://api.example/items" }
    (by decide) (by decide) (by decide) (by decide) (by decide) (by decide)

theorem handle_headers_shape (req : Request) (u : UpstreamResult)
    (hm : req.method ≠ "OPTIONS") (ho : originOf req ∈ ALLOWED_ORIGINS) :
    ∃ ct, (handle req u).1.headers =
      ("Content-Type", ct) :: corsHeaders (originOf req) none := by
  cases hfalsy : jsFalsy (getEntry req.query "url") with
  | true =>
    rw [handle_missing req u hm ho hfalsy]
    exact ⟨_, rfl⟩
  | false =>
    obtain ⟨t, ht, hne⟩ := jsFalsy_false hfalsy
    cases hparse : urlParse t with
    | none =>
      rw [handle_invalid req u hm ho ht hne (Or.inl hparse)]
      exact ⟨_, rfl⟩
    | some parsed =>
      by_cases hgood : parsed.protocol = "http:" ∨ parsed.protocol = "https:"
      · rcases u with ⟨us, uh, ub⟩ | msg <;>
          rw [handle_dispatch req _ hm ho ht hne hparse hgood] <;>
            exact ⟨_, rfl⟩
      · push_neg at hgood
        rw [handle_invalid req u hm ho ht hne
          (Or.inr ⟨parsed, hparse, hgood.1, hgood.2⟩)]
        exact ⟨_, rfl⟩

/-- Claim C9: every response the proxy sends to an origin-authorized caller
on a non-OPTIONS request (success, 400, or 502) carries exactly the
Content-Type header plus the four CORS headers, in that order; no upstream
response header other than content-type is relayed (in particular no
set-cookie header ever appears), and Access-Control-Allow-Origin always
equals the request's own Origin, which is never the wildcard. -/
theorem c9_response_header_invariant (req : Request) (u : UpstreamResult)
    (hm : req.method ≠ "OPTIONS")
    (ho : ALLOWED_ORIGINS.contains (originOf req) = true) :
    (handle req u).1.headers.map Prod.fst =
      "Content-Type" :: CORS_HEADER_NAMES ∧
    getEntry (handle req u).1.headers "Access-Control-Allow-Origin" =
      some (originOf req) ∧
    originOf req ≠ "*" ∧
    ∀ p ∈ (handle req u).1.headers, lowerStr p.1 ≠ "set-cookie" := by
  have ho' : originOf req ∈ ALLOWED_ORIGINS := by simpa using ho
  obtain ⟨ct, hshape⟩ := handle_headers_shape req u hm ho'
  rw [hshape]
  refine ⟨?_, ?_, ?_, ?_⟩
  · simp [corsHeaders, CORS_HEADER_NAMES]
  · simp [getEntry, corsHeaders]
  · rcases (by simpa [ALLOWED_ORIGINS] using ho' :
        originOf req = "http://localhost:9003" ∨
        originOf req = "https://runbookai.net" ∨
        originOf req = "https://www.runbookai.net") with h | h | h <;>
      rw [h] <;> decide
  · intro p hp
    rcases List.mem_cons.mp hp with h | h
    · rw [h]
      show lowerStr "Content-Type" ≠ "set-cookie"
      decide
    · simp only [corsHeaders, List.mem_cons, List.mem_singleton,
        List.not_mem_nil, or_false] at h
      rcases h with h | h | h | h <;> rw [h]
      · show lowerStr "Access-Control-Allow-Origin" ≠ "set-cookie"
        decide
      · show lowerStr "Access-Control-Allow-Methods" ≠ "set-cookie"
        decide
      · show lowerStr "Access-Control-Allow-Headers" ≠ "set-cookie"
        decide
      · show lowerStr "Access-Control-Max-Age" ≠ "set-cookie"
        decide

/-- Claim C9 witness: the response-header invariant evaluated at a concrete
request whose upstream response carries a set-cookie header. -/
theorem c9_response_header_invariant_witness :
    ((handle postApiReq
        (.ok 200 [("set-cookie", "sid=9"), ("content-type", "text/html")]
          [1])).1.headers.map Prod.fst =
      "Content-Type" :: CORS_HEADER_NAMES ∧
    getEntry (handle postApiReq
        (.ok 200 [("set-cookie", "sid=9"), ("content-type", "text/html")]
          [1])).1.headers "Access-Control-Allow-Origin" =
      some (originOf postApiReq) ∧
    originOf postApiReq ≠ "*" ∧
    ∀ p ∈ (handle postApiReq
        (.ok 200 [("set-cookie", "sid=9"), ("content-type", "text/html")]
          [1])).1.headers, lowerStr p.1 ≠ "set-cookie") :=
  c9_response_header_invariant postApiReq
    (.ok 200 [("set-cookie", "sid=9"), ("content-type", "text/html")] [1])
    (by decide) (by decide)
